import Mathlib

/-!
Verification of the planning-state and geometry engine of the
foxhole-artillery-planner repository, as a shallow embedding in Lean 4.

Floating-point (`f64`) arithmetic from the source is modelled over `ℝ`
(for the trigonometric firing-solution code and the view math) and over
`ℚ` (for the grid-label code, which only uses field operations, `floor`
and comparisons, so that concrete labels are decidably computable).
Rust `Vec::remove`, which panics on an out-of-bounds index, is modelled
with `Option`: `none` is a panic.
-/

-- ===========================================================================
-- crates/shared/src/models.rs
-- ===========================================================================

inductive Faction where
  | Colonial
  | Warden
  | Both
deriving DecidableEq

structure Weapon where
  faction : Faction
  display_name : String
  min_range : ℝ
  max_range : ℝ
  acc_radius : ℝ × ℝ
  wind_drift : ℝ × ℝ

structure Position where
  x : ℝ
  y : ℝ

structure WindInput where
  direction : ℝ
  strength : ℕ  -- u8 in the source

structure FiringSolution where
  azimuth : ℝ
  distance : ℝ
  in_range : Bool
  accuracy_radius : ℝ
  wind_adjusted_azimuth : Option ℝ
  wind_adjusted_distance : Option ℝ
  wind_offset_meters : Option ℝ

-- ===========================================================================
-- crates/shared/src/calc.rs
-- ===========================================================================

noncomputable section

/-- Meters per wind strength level for lateral drift (`WIND_DRIFT_PER_LEVEL`). -/
def WIND_DRIFT_PER_LEVEL : ℝ := 8

/-- Euclidean distance between two positions (`calc::distance`). -/
def distance (a b : Position) : ℝ :=
  let dx := b.x - a.x
  let dy := b.y - a.y
  Real.sqrt (dx * dx + dy * dy)

/-- `f64::atan2`: `y.atan2 x` is the argument of the complex number `x + y*i`. -/
def atan2 (y x : ℝ) : ℝ := Complex.arg ⟨x, y⟩

open scoped Classical in
/-- Compass azimuth from `gun` to `target` in degrees `[0, 360)`
(`calc::azimuth`): `atan2(dx, -dy)` converted to degrees and normalized. -/
def azimuth (gun target : Position) : ℝ :=
  let dx := target.x - gun.x
  let dy := target.y - gun.y
  let rad := atan2 dx (-dy)
  let deg := rad * (180 / Real.pi)
  if deg < 0 then deg + 360 else deg

/-- `f64::clamp(lo, hi)`. -/
def f64_clamp (x lo hi : ℝ) : ℝ := max lo (min x hi)

open scoped Classical in
/-- Interpolate accuracy radius for a given distance (`calc::accuracy_radius`):
`acc_radius.1` at `min_range`, `acc_radius.2` at `max_range`. -/
def accuracy_radius (weapon : Weapon) (dist : ℝ) : ℝ :=
  let range_span := weapon.max_range - weapon.min_range
  if range_span ≤ 0 then weapon.acc_radius.1
  else
    let t := f64_clamp ((dist - weapon.min_range) / range_span) 0 1
    weapon.acc_radius.1 + t * (weapon.acc_radius.2 - weapon.acc_radius.1)

open scoped Classical in
/-- Truncated (toward-zero) quotient, as used by Rust's `%` on `f64`. -/
def f64_trunc_div (x y : ℝ) : ℤ := if 0 ≤ x / y then ⌊x / y⌋ else ⌈x / y⌉

/-- Rust `f64` remainder `x % y` (remainder of truncated division). -/
def f64_rem (x y : ℝ) : ℝ := x - y * ((f64_trunc_div x y : ℤ) : ℝ)

/-- Wind offset vector in meters `(dx_wind, dy_wind)` (`calc::wind_offset`).
Wind blows FROM `direction`; shells drift toward `direction + 180`. -/
def wind_offset (wind : WindInput) : ℝ × ℝ :=
  let strength_m := (wind.strength : ℝ) * WIND_DRIFT_PER_LEVEL
  let push_dir := f64_rem (wind.direction + 180) 360
  let rad := push_dir * (Real.pi / 180)
  (Real.sin rad * strength_m, -Real.cos rad * strength_m)

open scoped Classical in
/-- Compute a full firing solution (`calc::firing_solution`). -/
def firing_solution (gun target : Position) (weapon : Weapon)
    (wind : Option WindInput) : FiringSolution :=
  let dist := distance gun target
  let az := azimuth gun target
  let in_range := decide (weapon.min_range ≤ dist ∧ dist ≤ weapon.max_range)
  let acc := accuracy_radius weapon dist
  let wfields : Option ℝ × Option ℝ × Option ℝ :=
    match wind with
    | some w =>
      if 0 < w.strength then
        let wo := wind_offset w
        let drift_magnitude := Real.sqrt (wo.1 * wo.1 + wo.2 * wo.2)
        let compensated : Position := ⟨target.x - wo.1, target.y - wo.2⟩
        (some (azimuth gun compensated), some (distance gun compensated),
         some drift_magnitude)
      else (none, none, none)
    | none => (none, none, none)
  { azimuth := az
    distance := dist
    in_range := in_range
    accuracy_radius := acc
    wind_adjusted_azimuth := wfields.1
    wind_adjusted_distance := wfields.2.1
    wind_offset_meters := wfields.2.2 }

end

/-- The weapon used in the source's own unit tests (`calc.rs` `test_weapon`). -/
noncomputable def test_weapon : Weapon :=
  { faction := Faction.Both
    display_name := "Test Gun"
    min_range := 100
    max_range := 300
    acc_radius := (10, 30)
    wind_drift := (20, 50) }

-- ===========================================================================
-- Theorems: C3 (accuracy_radius interpolation with clamping)
-- ===========================================================================

/-- Claim C3: `accuracy_radius` linearly interpolates the weapon's two
accuracy-radius values between `min_range` and `max_range`, with the
interpolation fraction clamped to `[0,1]`: distances at or below `min_range`
give the at-min value, distances at or above `max_range` (for a weapon with
`min_range < max_range`) give the at-max value, the value at `min_range` is
`acc_radius.1`, at `max_range` it is `acc_radius.2`, at the midpoint it is the
arithmetic mean, when `max_range = min_range` the at-min value is returned
unconditionally, and in general the result is the clamped interpolation. -/
theorem accuracy_radius_clamped_interpolation (w : Weapon) (d : ℝ) :
    (d ≤ w.min_range → accuracy_radius w d = w.acc_radius.1) ∧
    (w.min_range < w.max_range → w.max_range ≤ d →
      accuracy_radius w d = w.acc_radius.2) ∧
    accuracy_radius w w.min_range = w.acc_radius.1 ∧
    (w.min_range < w.max_range →
      accuracy_radius w w.max_range = w.acc_radius.2) ∧
    (w.min_range < w.max_range →
      accuracy_radius w ((w.min_range + w.max_range) / 2)
        = (w.acc_radius.1 + w.acc_radius.2) / 2) ∧
    (w.max_range = w.min_range → accuracy_radius w d = w.acc_radius.1) ∧
    (w.min_range < w.max_range →
      accuracy_radius w d = w.acc_radius.1 +
        f64_clamp ((d - w.min_range) / (w.max_range - w.min_range)) 0 1 *
          (w.acc_radius.2 - w.acc_radius.1)) := by
  have span_cases : w.max_range - w.min_range ≤ 0 ∨ 0 < w.max_range - w.min_range :=
    le_or_lt _ _
  refine ⟨?_, ?_, ?_, ?_, ?_, ?_, ?_⟩
  · intro hd
    rcases span_cases with h | h
    · simp [accuracy_radius, h]
    · have hle : (d - w.min_range) / (w.max_range - w.min_range) ≤ 0 :=
        div_nonpos_of_nonpos_of_nonneg (by linarith) (le_of_lt h)
      have hclamp : f64_clamp ((d - w.min_range) / (w.max_range - w.min_range)) 0 1 = 0 := by
        unfold f64_clamp
        rw [max_eq_left (min_le_of_left_le hle)]
      simp only [accuracy_radius, if_neg (not_le.mpr h)]
      rw [hclamp]; ring
  · intro hlt hd
    have h : 0 < w.max_range - w.min_range := by linarith
    have hge : 1 ≤ (d - w.min_range) / (w.max_range - w.min_range) := by
      rw [le_div_iff₀ h]; linarith
    have hclamp : f64_clamp ((d - w.min_range) / (w.max_range - w.min_range)) 0 1 = 1 := by
      unfold f64_clamp
      rw [min_eq_right hge, max_eq_right (by norm_num)]
    simp only [accuracy_radius, if_neg (not_le.mpr h)]
    rw [hclamp]; ring
  · rcases span_cases with h | h
    · simp [accuracy_radius, h]
    · have hclamp : f64_clamp ((w.min_range - w.min_range) / (w.max_range - w.min_range)) 0 1 = 0 := by
        unfold f64_clamp
        rw [sub_self, zero_div]
        simp
      simp only [accuracy_radius, if_neg (not_le.mpr h)]
      rw [hclamp]; ring
  · intro hlt
    have h : 0 < w.max_range - w.min_range := by linarith
    have hval : (w.max_range - w.min_range) / (w.max_range - w.min_range) = 1 :=
      div_self (ne_of_gt h)
    have hclamp : f64_clamp ((w.max_range - w.min_range) / (w.max_range - w.min_range)) 0 1 = 1 := by
      unfold f64_clamp
      rw [hval, min_self, max_eq_right (by norm_num)]
    simp only [accuracy_radius, if_neg (not_le.mpr h)]
    rw [hclamp]; ring
  · intro hlt
    have h : 0 < w.max_range - w.min_range := by linarith
    have hval : ((w.min_range + w.max_range) / 2 - w.min_range) / (w.max_range - w.min_range)
        = 1 / 2 := by
      rw [div_eq_div_iff (ne_of_gt h) (by norm_num)]
      ring
    have hclamp : f64_clamp (((w.min_range + w.max_range) / 2 - w.min_range) /
        (w.max_range - w.min_range)) 0 1 = 1 / 2 := by
      unfold f64_clamp
      rw [hval, min_eq_left (by norm_num), max_eq_right (by norm_num)]
    simp only [accuracy_radius, if_neg (not_le.mpr h)]
    rw [hclamp]; ring
  · intro heq
    have h : w.max_range - w.min_range ≤ 0 := by rw [heq]; simp
    simp [accuracy_radius, h]
  · intro hlt
    have h : 0 < w.max_range - w.min_range := by linarith
    simp only [accuracy_radius, if_neg (not_le.mpr h)]

/-- Witness for C3: on the source's own test weapon (range `[100,300]`,
accuracy radii `[10,30]`), the at-max value is `30`. -/
theorem accuracy_radius_clamped_interpolation_witness :
    (100 : ℝ) < 300 ∧ accuracy_radius test_weapon 300 = 30 := by
  refine ⟨by norm_num, ?_⟩
  have h := (accuracy_radius_clamped_interpolation test_weapon 300).2.2.2.1
  have h100 : test_weapon.min_range < test_weapon.max_range := by
    show (100 : ℝ) < 300; norm_num
  have := h h100
  simpa [test_weapon] using this

-- ===========================================================================
-- Theorems: C1 (wind-adjusted firing-solution fields)
-- ===========================================================================

/-- For any wind input, the drift vector produced by `wind_offset` has
Euclidean magnitude `strength * WIND_DRIFT_PER_LEVEL`. -/
theorem wind_offset_magnitude (w : WindInput) :
    Real.sqrt ((wind_offset w).1 * (wind_offset w).1 +
        (wind_offset w).2 * (wind_offset w).2)
      = (w.strength : ℝ) * WIND_DRIFT_PER_LEVEL := by
  have hmnn : (0 : ℝ) ≤ (w.strength : ℝ) * WIND_DRIFT_PER_LEVEL :=
    mul_nonneg (Nat.cast_nonneg _) (by norm_num [WIND_DRIFT_PER_LEVEL])
  show Real.sqrt
      (Real.sin (f64_rem (w.direction + 180) 360 * (Real.pi / 180)) *
          ((w.strength : ℝ) * WIND_DRIFT_PER_LEVEL) *
        (Real.sin (f64_rem (w.direction + 180) 360 * (Real.pi / 180)) *
          ((w.strength : ℝ) * WIND_DRIFT_PER_LEVEL)) +
      -Real.cos (f64_rem (w.direction + 180) 360 * (Real.pi / 180)) *
          ((w.strength : ℝ) * WIND_DRIFT_PER_LEVEL) *
        (-Real.cos (f64_rem (w.direction + 180) 360 * (Real.pi / 180)) *
          ((w.strength : ℝ) * WIND_DRIFT_PER_LEVEL)))
    = (w.strength : ℝ) * WIND_DRIFT_PER_LEVEL
  have hring :
      Real.sin (f64_rem (w.direction + 180) 360 * (Real.pi / 180)) *
          ((w.strength : ℝ) * WIND_DRIFT_PER_LEVEL) *
        (Real.sin (f64_rem (w.direction + 180) 360 * (Real.pi / 180)) *
          ((w.strength : ℝ) * WIND_DRIFT_PER_LEVEL)) +
      -Real.cos (f64_rem (w.direction + 180) 360 * (Real.pi / 180)) *
          ((w.strength : ℝ) * WIND_DRIFT_PER_LEVEL) *
        (-Real.cos (f64_rem (w.direction + 180) 360 * (Real.pi / 180)) *
          ((w.strength : ℝ) * WIND_DRIFT_PER_LEVEL))
      = ((w.strength : ℝ) * WIND_DRIFT_PER_LEVEL) ^ 2 *
        (Real.sin (f64_rem (w.direction + 180) 360 * (Real.pi / 180)) ^ 2 +
         Real.cos (f64_rem (w.direction + 180) 360 * (Real.pi / 180)) ^ 2) := by
    ring
  rw [hring, Real.sin_sq_add_cos_sq, mul_one, Real.sqrt_sq hmnn]

/-- Claim C1: each of the three wind-adjusted fields of `firing_solution` is
present exactly when a wind input with `strength > 0` is supplied, and each
of the three is `none` otherwise (no wind input, or strength 0, each stated
explicitly); when present, the drift vector is the wind's blowing-from
direction rotated 180° converted to a screen-axis displacement with magnitude
`strength * WIND_DRIFT_PER_LEVEL`, the compensated aim point is the target
minus that drift vector, the wind-adjusted azimuth and distance are the
azimuth and distance from the gun to the compensated point, and the reported
wind offset magnitude equals the drift vector's magnitude
(= `strength * WIND_DRIFT_PER_LEVEL`). -/
theorem firing_solution_wind_fields (gun target : Position) (weapon : Weapon)
    (wind : Option WindInput) :
    ((firing_solution gun target weapon wind).wind_adjusted_azimuth.isSome ↔
      ∃ w, wind = some w ∧ 0 < w.strength) ∧
    ((firing_solution gun target weapon wind).wind_adjusted_distance.isSome ↔
      ∃ w, wind = some w ∧ 0 < w.strength) ∧
    ((firing_solution gun target weapon wind).wind_offset_meters.isSome ↔
      ∃ w, wind = some w ∧ 0 < w.strength) ∧
    (∀ w, wind = some w → w.strength = 0 →
      (firing_solution gun target weapon wind).wind_adjusted_azimuth = none ∧
      (firing_solution gun target weapon wind).wind_adjusted_distance = none ∧
      (firing_solution gun target weapon wind).wind_offset_meters = none) ∧
    (wind = none →
      (firing_solution gun target weapon wind).wind_adjusted_azimuth = none ∧
      (firing_solution gun target weapon wind).wind_adjusted_distance = none ∧
      (firing_solution gun target weapon wind).wind_offset_meters = none) ∧
    (∀ w, wind = some w → 0 < w.strength →
      (firing_solution gun target weapon wind).wind_adjusted_azimuth
        = some (azimuth gun (Position.mk (target.x - (wind_offset w).1)
            (target.y - (wind_offset w).2))) ∧
      (firing_solution gun target weapon wind).wind_adjusted_distance
        = some (distance gun (Position.mk (target.x - (wind_offset w).1)
            (target.y - (wind_offset w).2))) ∧
      (firing_solution gun target weapon wind).wind_offset_meters
        = some ((w.strength : ℝ) * WIND_DRIFT_PER_LEVEL) ∧
      (wind_offset w).1
        = Real.sin (f64_rem (w.direction + 180) 360 * (Real.pi / 180)) *
            ((w.strength : ℝ) * WIND_DRIFT_PER_LEVEL) ∧
      (wind_offset w).2
        = -Real.cos (f64_rem (w.direction + 180) 360 * (Real.pi / 180)) *
            ((w.strength : ℝ) * WIND_DRIFT_PER_LEVEL) ∧
      Real.sqrt ((wind_offset w).1 * (wind_offset w).1 +
          (wind_offset w).2 * (wind_offset w).2)
        = (w.strength : ℝ) * WIND_DRIFT_PER_LEVEL) := by
  have hall_none : ∀ w, wind = some w → ¬ 0 < w.strength →
      (firing_solution gun target weapon wind).wind_adjusted_azimuth = none ∧
      (firing_solution gun target weapon wind).wind_adjusted_distance = none ∧
      (firing_solution gun target weapon wind).wind_offset_meters = none := by
    intro w hw hnp
    subst hw
    have hproj :
        ((firing_solution gun target weapon (some w)).wind_adjusted_azimuth,
         (firing_solution gun target weapon (some w)).wind_adjusted_distance,
         (firing_solution gun target weapon (some w)).wind_offset_meters)
        = ((none : Option ℝ), (none : Option ℝ), (none : Option ℝ)) := by
      simp only [firing_solution, if_neg hnp]
    exact ⟨congrArg (·.1) hproj, congrArg (·.2.1) hproj,
      congrArg (·.2.2) hproj⟩
  have hpos_fields : ∀ w, wind = some w → 0 < w.strength →
      (firing_solution gun target weapon wind).wind_adjusted_azimuth
        = some (azimuth gun (Position.mk (target.x - (wind_offset w).1)
            (target.y - (wind_offset w).2))) ∧
      (firing_solution gun target weapon wind).wind_adjusted_distance
        = some (distance gun (Position.mk (target.x - (wind_offset w).1)
            (target.y - (wind_offset w).2))) ∧
      (firing_solution gun target weapon wind).wind_offset_meters
        = some (Real.sqrt ((wind_offset w).1 * (wind_offset w).1 +
            (wind_offset w).2 * (wind_offset w).2)) := by
    intro w hw hpos
    subst hw
    have hproj :
        ((firing_solution gun target weapon (some w)).wind_adjusted_azimuth,
         (firing_solution gun target weapon (some w)).wind_adjusted_distance,
         (firing_solution gun target weapon (some w)).wind_offset_meters)
        = (some (azimuth gun (Position.mk (target.x - (wind_offset w).1)
              (target.y - (wind_offset w).2))),
           some (distance gun (Position.mk (target.x - (wind_offset w).1)
              (target.y - (wind_offset w).2))),
           some (Real.sqrt ((wind_offset w).1 * (wind_offset w).1 +
              (wind_offset w).2 * (wind_offset w).2))) := by
      simp only [firing_solution, if_pos hpos]
    exact ⟨congrArg (·.1) hproj, congrArg (·.2.1) hproj,
      congrArg (·.2.2) hproj⟩
  refine ⟨?_, ?_, ?_, ?_, ?_, ?_⟩
  · constructor
    · intro hsome
      cases wind with
      | none => exact absurd hsome (by simp [firing_solution])
      | some w =>
        by_cases h : 0 < w.strength
        · exact ⟨w, rfl, h⟩
        · rw [(hall_none w rfl h).1] at hsome
          simp at hsome
    · rintro ⟨w, rfl, h⟩
      rw [(hpos_fields w rfl h).1]
      rfl
  · constructor
    · intro hsome
      cases wind with
      | none => exact absurd hsome (by simp [firing_solution])
      | some w =>
        by_cases h : 0 < w.strength
        · exact ⟨w, rfl, h⟩
        · rw [(hall_none w rfl h).2.1] at hsome
          simp at hsome
    · rintro ⟨w, rfl, h⟩
      rw [(hpos_fields w rfl h).2.1]
      rfl
  · constructor
    · intro hsome
      cases wind with
      | none => exact absurd hsome (by simp [firing_solution])
      | some w =>
        by_cases h : 0 < w.strength
        · exact ⟨w, rfl, h⟩
        · rw [(hall_none w rfl h).2.2] at hsome
          simp at hsome
    · rintro ⟨w, rfl, h⟩
      rw [(hpos_fields w rfl h).2.2]
      rfl
  · intro w hw h0
    exact hall_none w hw (by omega)
  · intro hw
    subst hw
    exact ⟨rfl, rfl, rfl⟩
  · intro w hw hpos
    obtain ⟨h1, h2, h3⟩ := hpos_fields w hw hpos
    refine ⟨h1, h2, ?_, rfl, rfl, wind_offset_magnitude w⟩
    rw [h3, wind_offset_magnitude w]

/-- The wind used in the source's own `test_firing_solution_with_wind` test:
from the west, strength 3. -/
noncomputable def test_wind : WindInput := WindInput.mk 270 3

/-- Witness for C1, the spec's scenario 2: gun `(0,0)`, target `(0,-200)`,
wind from 270° at strength 3 yields a present wind offset magnitude of
`3 * 8 = 24`. -/
theorem firing_solution_wind_fields_witness :
    (0 < test_wind.strength) ∧
    (firing_solution (Position.mk 0 0) (Position.mk 0 (-200)) test_weapon
        (some test_wind)).wind_offset_meters
      = some ((test_wind.strength : ℝ) * WIND_DRIFT_PER_LEVEL) ∧
    ((test_wind.strength : ℝ) * WIND_DRIFT_PER_LEVEL) = 24 := by
  refine ⟨by norm_num [test_wind], ?_, by norm_num [test_wind, WIND_DRIFT_PER_LEVEL]⟩
  exact ((firing_solution_wind_fields (Position.mk 0 0) (Position.mk 0 (-200))
    test_weapon (some test_wind)).2.2.2.2.2 test_wind rfl
    (by norm_num [test_wind])).2.2.1

-- ===========================================================================
-- crates/frontend/src/components/map_view.rs : zoom/pan math
-- ===========================================================================

noncomputable section

/-- Compute new pan offsets so that `cursor` stays over the same content point
when zooming from `old_zoom` to `new_zoom` (`map_view::zoom_pan_at_cursor`). -/
def zoom_pan_at_cursor (cursor_x cursor_y old_zoom new_zoom old_pan_x old_pan_y : ℝ) :
    ℝ × ℝ :=
  let content_x := (cursor_x - old_pan_x) / old_zoom
  let content_y := (cursor_y - old_pan_y) / old_zoom
  (cursor_x - content_x * new_zoom, cursor_y - content_y * new_zoom)

end

-- ===========================================================================
-- Theorems: C9 (anchored zoom keeps the content point under the cursor)
-- ===========================================================================

/-- Claim C9: the anchored-zoom pan computation keeps the content point under
the cursor invariant: the returned pan equals `cursor - contentPoint * newZoom`
where `contentPoint = (cursor - oldPan) / oldZoom`, and for nonzero zooms
`(cursor - newPan) / newZoom = (cursor - oldPan) / oldZoom` on both axes. -/
theorem zoom_pan_at_cursor_anchored
    (cx cy oz nz opx opy : ℝ) (hoz : oz ≠ 0) (hnz : nz ≠ 0) :
    (zoom_pan_at_cursor cx cy oz nz opx opy).1 = cx - ((cx - opx) / oz) * nz ∧
    (zoom_pan_at_cursor cx cy oz nz opx opy).2 = cy - ((cy - opy) / oz) * nz ∧
    (cx - (zoom_pan_at_cursor cx cy oz nz opx opy).1) / nz = (cx - opx) / oz ∧
    (cy - (zoom_pan_at_cursor cx cy oz nz opx opy).2) / nz = (cy - opy) / oz := by
  refine ⟨rfl, rfl, ?_, ?_⟩ <;>
    · show (_ - (_ - _ / _ * _)) / _ = _
      field_simp
      ring

/-- Witness for C9: zooming from 1 to 2 at cursor `(400,300)` with zero pan
leaves the content point under the cursor fixed. -/
theorem zoom_pan_at_cursor_anchored_witness :
    (1 : ℝ) ≠ 0 ∧ (2 : ℝ) ≠ 0 ∧
    ((400 : ℝ) - (zoom_pan_at_cursor 400 300 1 2 0 0).1) / 2 = (400 - 0) / 1 ∧
    ((300 : ℝ) - (zoom_pan_at_cursor 400 300 1 2 0 0).2) / 2 = (300 - 0) / 1 := by
  have h := zoom_pan_at_cursor_anchored 400 300 1 2 0 0 one_ne_zero two_ne_zero
  exact ⟨one_ne_zero, two_ne_zero, h.2.2.1, h.2.2.2⟩

-- ===========================================================================
-- crates/shared/src/grid.rs  (modelled over ℚ: the source's f64 operations
-- here are clamping, division, subtraction, multiplication, floor and
-- comparison, all exact on the rationals)
-- ===========================================================================

namespace grid

/-- World width in meters (`MAP_WIDTH_M`). -/
def MAP_WIDTH_M : ℚ := 2184

/-- World height in meters (`MAP_HEIGHT_M`). -/
def MAP_HEIGHT_M : ℚ := 1890

/-- Number of grid columns, A through Q (`GRID_COLS`). -/
def GRID_COLS : ℕ := 17

/-- Number of grid rows, 1 through 15 (`GRID_ROWS`). -/
def GRID_ROWS : ℕ := 15

/-- Grid cell width in meters (`GRID_CELL_WIDTH_M`). -/
def GRID_CELL_WIDTH_M : ℚ := MAP_WIDTH_M / (GRID_COLS : ℚ)

/-- Grid cell height in meters (`GRID_CELL_HEIGHT_M`). -/
def GRID_CELL_HEIGHT_M : ℚ := MAP_HEIGHT_M / (GRID_ROWS : ℚ)

/-- `f64::clamp(lo, hi)`, over ℚ. -/
def rat_clamp (x lo hi : ℚ) : ℚ := max lo (min x hi)

/-- Rust `as usize` on an `f64`: truncation toward zero, saturating at 0 for
negative input.  For the nonnegative values produced after clamping this is
exactly `⌊·⌋`. -/
def to_usize (x : ℚ) : ℕ := (⌊x⌋).toNat

/-- Column letter for a 0-based column index (`grid::col_letter`): A=0, Q=16. -/
def col_letter (col : ℕ) : Char := Char.ofNat (65 + col)

/-- The keypad table from the body of `format_grid_coord`:
`(kx, ky)` sub-cell coordinates (left-to-right, top-to-bottom) to the numpad
digit, top row `7 8 9`, middle `4 5 6`, bottom `1 2 3`. -/
def keypad_digit (kx ky : ℕ) : ℕ :=
  match kx, ky with
  | 0, 0 => 7
  | 1, 0 => 8
  | 2, 0 => 9
  | 0, 1 => 4
  | 1, 1 => 5
  | 2, 1 => 6
  | 0, 2 => 1
  | 1, 2 => 2
  | 2, 2 => 3
  | _, _ => 5

/-- Format a meter position as a Foxhole grid coordinate, e.g. `"G9k3"`
(`grid::format_grid_coord`). -/
def format_grid_coord (m_x m_y : ℚ) : String :=
  let m_x := rat_clamp m_x 0 (MAP_WIDTH_M - 1 / 100)
  let m_y := rat_clamp m_y 0 (MAP_HEIGHT_M - 1 / 100)
  let col := to_usize (m_x / GRID_CELL_WIDTH_M)
  let row := to_usize (m_y / GRID_CELL_HEIGHT_M)
  let col := min col (GRID_COLS - 1)
  let row := min row (GRID_ROWS - 1)
  let sub_x := (m_x - (col : ℚ) * GRID_CELL_WIDTH_M) / GRID_CELL_WIDTH_M
  let sub_y := (m_y - (row : ℚ) * GRID_CELL_HEIGHT_M) / GRID_CELL_HEIGHT_M
  let kx := to_usize (sub_x * 3)
  let ky := to_usize (sub_y * 3)
  let kx := min kx 2
  let ky := min ky 2
  String.singleton (col_letter col) ++ toString (row + 1) ++ "k" ++
    toString (keypad_digit kx ky)

/-- The grid-label function as the specification words it: clamp the input
into the map bounds, take `column = floor(x / cellWidth)` and
`row = floor(y / cellHeight)` clamped to the last valid index, and map the 3×3
sub-cell coordinates to the fixed keypad layout with top row 7,8,9, middle row
4,5,6, bottom row 1,2,3 — written here as the closed formula
`(kx + 1) + 3 * (2 - ky)` instead of the source's lookup table. -/
def grid_label_spec (m_x m_y : ℚ) : String :=
  let x := rat_clamp m_x 0 (MAP_WIDTH_M - 1 / 100)
  let y := rat_clamp m_y 0 (MAP_HEIGHT_M - 1 / 100)
  let col := min (to_usize (x / GRID_CELL_WIDTH_M)) (GRID_COLS - 1)
  let row := min (to_usize (y / GRID_CELL_HEIGHT_M)) (GRID_ROWS - 1)
  let kx := min (to_usize ((x - (col : ℚ) * GRID_CELL_WIDTH_M) / GRID_CELL_WIDTH_M * 3)) 2
  let ky := min (to_usize ((y - (row : ℚ) * GRID_CELL_HEIGHT_M) / GRID_CELL_HEIGHT_M * 3)) 2
  String.singleton (col_letter col) ++ toString (row + 1) ++ "k" ++
    toString ((kx + 1) + 3 * (2 - ky))

/-- On the 3×3 range the source's keypad lookup table agrees with the
closed-form keypad layout `(kx + 1) + 3 * (2 - ky)`. -/
theorem keypad_digit_eq (kx ky : ℕ) (hx : kx ≤ 2) (hy : ky ≤ 2) :
    keypad_digit kx ky = (kx + 1) + 3 * (2 - ky) := by
  interval_cases kx <;> interval_cases ky <;> rfl

/-- Evaluation helper: `format_grid_coord` at an input whose clamped value,
column, row and sub-cell floors are known. -/
theorem format_grid_coord_eval (mx my cx cy : ℚ) (c0 r0 kx0 ky0 : ℕ)
    (hcx : max 0 (min mx (MAP_WIDTH_M - 1 / 100)) = cx)
    (hcy : max 0 (min my (MAP_HEIGHT_M - 1 / 100)) = cy)
    (hc : ⌊cx / GRID_CELL_WIDTH_M⌋ = (c0 : ℤ)) (hc2 : c0 ≤ 16)
    (hr : ⌊cy / GRID_CELL_HEIGHT_M⌋ = (r0 : ℤ)) (hr2 : r0 ≤ 14)
    (hkx : ⌊(cx - (c0 : ℚ) * GRID_CELL_WIDTH_M) / GRID_CELL_WIDTH_M * 3⌋ = (kx0 : ℤ))
    (hkx2 : kx0 ≤ 2)
    (hky : ⌊(cy - (r0 : ℚ) * GRID_CELL_HEIGHT_M) / GRID_CELL_HEIGHT_M * 3⌋ = (ky0 : ℤ))
    (hky2 : ky0 ≤ 2) :
    format_grid_coord mx my =
      String.singleton (col_letter c0) ++ toString (r0 + 1) ++ "k" ++
        toString (keypad_digit kx0 ky0) := by
  have h16 : GRID_COLS - 1 = 16 := rfl
  have h14 : GRID_ROWS - 1 = 14 := rfl
  simp only [format_grid_coord, rat_clamp, to_usize, h16, h14]
  rw [hcx, hcy, hc, hr, Int.toNat_natCast, Int.toNat_natCast,
    min_eq_left hc2, min_eq_left hr2, hkx, hky, Int.toNat_natCast,
    Int.toNat_natCast, min_eq_left hkx2, min_eq_left hky2]

end grid

/-- Claim C8: the grid-label function clamps the input into the map bounds,
computes `column = floor(x / cellWidth)` and `row = floor(y / cellHeight)`
clamped to the last valid index rather than wrapping, and maps the 3×3
sub-cell fraction to the keypad layout with top row 7,8,9, middle row 4,5,6,
bottom row 1,2,3; in particular `(0,0)` gives `"A1k7"` and a position just
inside the far corner gives `"Q15k3"`. -/
theorem format_grid_coord_spec :
    (∀ x y : ℚ, grid.format_grid_coord x y = grid.grid_label_spec x y) ∧
    grid.format_grid_coord 0 0 = "A1k7" ∧
    grid.format_grid_coord (grid.MAP_WIDTH_M - 1 / 1000)
      (grid.MAP_HEIGHT_M - 1 / 1000) = "Q15k3" := by
  refine ⟨?_, ?_, ?_⟩
  · intro x y
    simp only [grid.format_grid_coord, grid.grid_label_spec]
    rw [grid.keypad_digit_eq _ _ (min_le_right _ _) (min_le_right _ _)]
  · rw [grid.format_grid_coord_eval 0 0 0 0 0 0 0 0
      (by rw [min_eq_left (by norm_num [grid.MAP_WIDTH_M]), max_self])
      (by rw [min_eq_left (by norm_num [grid.MAP_HEIGHT_M]), max_self])
      (by norm_num) (by norm_num)
      (by norm_num) (by norm_num)
      (by norm_num) (by norm_num)
      (by norm_num) (by norm_num)]
    decide
  · rw [grid.format_grid_coord_eval (grid.MAP_WIDTH_M - 1 / 1000)
      (grid.MAP_HEIGHT_M - 1 / 1000) (grid.MAP_WIDTH_M - 1 / 100)
      (grid.MAP_HEIGHT_M - 1 / 100) 16 14 2 2
      (by rw [min_eq_right (by norm_num [grid.MAP_WIDTH_M]),
              max_eq_right (by norm_num [grid.MAP_WIDTH_M])])
      (by rw [min_eq_right (by norm_num [grid.MAP_HEIGHT_M]),
              max_eq_right (by norm_num [grid.MAP_HEIGHT_M])])
      (Int.floor_eq_iff.mpr
        (by norm_num [grid.MAP_WIDTH_M, grid.GRID_CELL_WIDTH_M, grid.GRID_COLS]))
      (by norm_num)
      (Int.floor_eq_iff.mpr
        (by norm_num [grid.MAP_HEIGHT_M, grid.GRID_CELL_HEIGHT_M, grid.GRID_ROWS]))
      (by norm_num)
      (Int.floor_eq_iff.mpr
        (by norm_num [grid.MAP_WIDTH_M, grid.GRID_CELL_WIDTH_M, grid.GRID_COLS]))
      (by norm_num)
      (Int.floor_eq_iff.mpr
        (by norm_num [grid.MAP_HEIGHT_M, grid.GRID_CELL_HEIGHT_M, grid.GRID_ROWS]))
      (by norm_num)]
    decide

-- ===========================================================================
-- crates/frontend/src/components/map_view.rs : marker/pairing model
-- ===========================================================================

inductive MarkerKind where
  | Gun
  | Target
  | Spotter
deriving DecidableEq

structure SelectedMarker where
  kind : MarkerKind
  index : ℕ
deriving DecidableEq

/-- The marker/pairing state mutated by `map_view`'s handlers: the parallel
lists held in the `Signal`s passed to `remove_marker` and
`handle_marker_placement`.  Positions are `f64` pairs, modelled over ℝ. -/
structure MapState where
  gun_positions : List (ℝ × ℝ)
  target_positions : List (ℝ × ℝ)
  spotter_positions : List (ℝ × ℝ)
  gun_weapon_ids : List String
  gun_target_indices : List (Option ℕ)

/-- Rust `Vec::remove(index)`: removes the element at `index`, shifting later
elements down.  It PANICS when `index` is out of bounds; the panic is
modelled as `none`. -/
def vec_remove {α : Type} (l : List α) (index : ℕ) : Option (List α) :=
  if index < l.length then some (l.eraseIdx index) else none

/-- `map_view::remove_marker`: remove a marker by kind and index, fixing up
gun-target pairings.  A Rust panic (out-of-bounds `Vec::remove`) is modelled
as `none` for the whole call. -/
def remove_marker (kind : MarkerKind) (index : ℕ) (s : MapState) :
    Option MapState :=
  match kind with
  | MarkerKind.Gun => do
    let gp ← vec_remove s.gun_positions index
    let ids ← vec_remove s.gun_weapon_ids index
    let pairings :=
      if index < s.gun_target_indices.length then
        s.gun_target_indices.eraseIdx index
      else s.gun_target_indices
    pure { s with gun_positions := gp, gun_weapon_ids := ids,
                  gun_target_indices := pairings }
  | MarkerKind.Target => do
    let tp ← vec_remove s.target_positions index
    let pairings := s.gun_target_indices.map fun entry =>
      match entry with
      | some ti =>
        if ti = index then none
        else if index < ti then some (ti - 1)
        else some ti
      | none => none
    pure { s with target_positions := tp, gun_target_indices := pairings }
  | MarkerKind.Spotter => do
    let sp ← vec_remove s.spotter_positions index
    pure { s with spotter_positions := sp }

-- ===========================================================================
-- Theorems: C2 (removing a Target fixes up every pairing)
-- ===========================================================================

/-- Claim C2: removing the Target at a valid index `k` removes it from the
target list (later entries shift down by one), leaves the other lists
untouched, and fixes up every Emitter pairing: entries equal to `k` become
unpaired (`none`), entries greater than `k` are decremented by exactly one,
and entries less than `k` (and unpaired entries) are unchanged. -/
theorem remove_target_pairing_fixup (s : MapState) (k : ℕ)
    (hk : k < s.target_positions.length) :
    ∃ s', remove_marker MarkerKind.Target k s = some s' ∧
      s'.gun_positions = s.gun_positions ∧
      s'.spotter_positions = s.spotter_positions ∧
      s'.gun_weapon_ids = s.gun_weapon_ids ∧
      s'.target_positions = s.target_positions.eraseIdx k ∧
      s'.target_positions.length = s.target_positions.length - 1 ∧
      (∀ j, j < k → s'.target_positions[j]? = s.target_positions[j]?) ∧
      (∀ j, k ≤ j → s'.target_positions[j]? = s.target_positions[j + 1]?) ∧
      s'.gun_target_indices.length = s.gun_target_indices.length ∧
      (∀ g : ℕ, s'.gun_target_indices[g]? =
        (s.gun_target_indices[g]?).map fun entry =>
          match entry with
          | some ti =>
            if ti = k then none
            else if k < ti then some (ti - 1)
            else some ti
          | none => none) := by
  have heq : remove_marker MarkerKind.Target k s = some
      { s with target_positions := s.target_positions.eraseIdx k,
               gun_target_indices := s.gun_target_indices.map fun entry =>
                 match entry with
                 | some ti =>
                   if ti = k then none
                   else if k < ti then some (ti - 1)
                   else some ti
                 | none => none } := by
    simp only [remove_marker, vec_remove, if_pos hk]
    rfl
  refine ⟨_, heq, rfl, rfl, rfl, rfl, ?_, ?_, ?_, ?_, ?_⟩
  · simpa using List.length_eraseIdx_of_lt hk
  · intro j hj
    exact List.getElem?_eraseIdx_of_lt _ _ _ hj
  · intro j hj
    exact List.getElem?_eraseIdx_of_ge _ _ _ hj
  · simp
  · intro g
    simp [List.getElem?_map]

/-- Witness for C2: removing Target 0 from a state with targets `[T0, T1]`
and pairings `[some 0, some 1, none]` succeeds and keeps the pairing list's
length. -/
theorem remove_target_pairing_fixup_witness :
    0 < (MapState.mk [] [((0:ℝ),(0:ℝ)), ((1:ℝ),(1:ℝ))] [] []
          [some 0, some 1, none]).target_positions.length ∧
    ∃ s', remove_marker MarkerKind.Target 0
        (MapState.mk [] [((0:ℝ),(0:ℝ)), ((1:ℝ),(1:ℝ))] [] []
          [some 0, some 1, none]) = some s' ∧
      s'.gun_target_indices.length = 3 := by
  have hk : 0 < (MapState.mk [] [((0:ℝ),(0:ℝ)), ((1:ℝ),(1:ℝ))] [] []
      [some 0, some 1, none]).target_positions.length := by simp
  obtain ⟨s', h1, -, -, -, -, -, -, -, h9, -⟩ :=
    remove_target_pairing_fixup
      (MapState.mk [] [((0:ℝ),(0:ℝ)), ((1:ℝ),(1:ℝ))] [] []
        [some 0, some 1, none]) 0 hk
  exact ⟨hk, s', h1, by simpa using h9⟩

-- ===========================================================================
-- Theorems: C4 (totality of remove_marker) — the code panics out of bounds
-- ===========================================================================

/-- The empty marker state. -/
def empty_map_state : MapState := MapState.mk [] [] [] [] []

/-- Counterexample to claim C4 as stated: calling `remove_marker` with an
index that is not a valid position is NOT a no-op — the underlying
`Vec::remove` panics (modelled as `none`).  Concretely, removing Gun 0 from
the empty state panics instead of leaving the state unchanged. -/
theorem remove_marker_oob_panics :
    remove_marker MarkerKind.Gun 0 empty_map_state = none := by
  simp [remove_marker, vec_remove, empty_map_state]

/-- Claim C4 (amended): `remove_marker` is total only on in-bounds indices.
It succeeds exactly when the index is a valid position in the corresponding
marker list(s); on any out-of-bounds index the underlying `Vec::remove`
panics (modelled as `none`) rather than acting as a no-op. -/
theorem remove_marker_isSome_iff (kind : MarkerKind) (index : ℕ) (s : MapState) :
    (remove_marker kind index s).isSome ↔
      (match kind with
       | MarkerKind.Gun =>
         index < s.gun_positions.length ∧ index < s.gun_weapon_ids.length
       | MarkerKind.Target => index < s.target_positions.length
       | MarkerKind.Spotter => index < s.spotter_positions.length) := by
  cases kind
  · by_cases h1 : index < s.gun_positions.length <;>
      by_cases h2 : index < s.gun_weapon_ids.length <;>
      simp [remove_marker, vec_remove, h1, h2]
  · by_cases h : index < s.target_positions.length <;>
      simp [remove_marker, vec_remove, h]
  · by_cases h : index < s.spotter_positions.length <;>
      simp [remove_marker, vec_remove, h]

-- ===========================================================================
-- map_view.rs : placement helpers
-- ===========================================================================

/-- Distance threshold (map-image pixels, before zoom) for right-click
removal and near-target pairing (`REMOVE_THRESHOLD`). -/
noncomputable def REMOVE_THRESHOLD : ℝ := 60

/-- Find the index of the first target not paired with any gun
(`map_view::find_first_unpaired_target`): `(0..target_count).find(...)`. -/
def find_first_unpaired_target (pairings : List (Option ℕ)) (target_count : ℕ) :
    Option ℕ :=
  (List.range target_count).find? fun ti => !(pairings.contains (some ti))

/-- Pair the first unpaired gun (`None` entry) with the given target index
(`map_view::pair_first_unpaired_gun`). -/
def pair_first_unpaired_gun : List (Option ℕ) → ℕ → List (Option ℕ)
  | [], _ => []
  | none :: rest, target_idx => some target_idx :: rest
  | some x :: rest, target_idx => some x :: pair_first_unpaired_gun rest target_idx

open scoped Classical in
/-- The loop body of `map_view::find_nearest`: scan positions with a running
best index and best distance (initially the threshold). -/
noncomputable def find_nearest_loop (click : ℝ × ℝ) :
    List (ℝ × ℝ) → ℕ → Option ℕ → ℝ → Option ℕ
  | [], _, best_idx, _ => best_idx
  | pos :: rest, i, best_idx, best_dist =>
    let dx := pos.1 - click.1
    let dy := pos.2 - click.2
    let d := Real.sqrt (dx * dx + dy * dy)
    if d < best_dist then find_nearest_loop click rest (i + 1) (some i) d
    else find_nearest_loop click rest (i + 1) best_idx best_dist

/-- Find the index of the nearest position within `threshold`
(`map_view::find_nearest`). -/
noncomputable def find_nearest (positions : List (ℝ × ℝ)) (click : ℝ × ℝ)
    (threshold : ℝ) : Option ℕ :=
  find_nearest_loop click positions 0 none threshold

/-- The `PlacementMode::Gun` branch of `map_view::handle_marker_placement`
(no marker selected): append the gun position and its weapon slug, then
auto-pair with the first unpaired target. -/
def handle_marker_placement_gun (img : ℝ × ℝ) (slug : String) (s : MapState) :
    MapState :=
  { s with
    gun_positions := s.gun_positions ++ [img]
    gun_weapon_ids := s.gun_weapon_ids ++ [slug]
    gun_target_indices := s.gun_target_indices ++
      [find_first_unpaired_target s.gun_target_indices s.target_positions.length] }

/-- The `PlacementMode::Target` branch of `map_view::handle_marker_placement`
(no marker selected): if the click is within the removal threshold of an
existing target, pair the first unpaired gun with that target; otherwise
append a new target and pair the first unpaired gun with it. -/
noncomputable def handle_marker_placement_target (img : ℝ × ℝ) (zoom : ℝ)
    (s : MapState) : MapState :=
  let threshold := REMOVE_THRESHOLD / min zoom 5
  match find_nearest s.target_positions img threshold with
  | some ti =>
    { s with gun_target_indices := pair_first_unpaired_gun s.gun_target_indices ti }
  | none =>
    let new_targets := s.target_positions ++ [img]
    let new_target_idx := new_targets.length - 1
    { s with
      target_positions := new_targets
      gun_target_indices := pair_first_unpaired_gun s.gun_target_indices new_target_idx }

-- ===========================================================================
-- List.find? helper lemmas (first-fit characterization)
-- ===========================================================================

/-- If `find?` hits in the first list, appending a second list changes
nothing. -/
theorem find?_append_of_some {α : Type} (p : α → Bool) (l₁ l₂ : List α) (x : α)
    (h : l₁.find? p = some x) : (l₁ ++ l₂).find? p = some x := by
  induction l₁ with
  | nil => simp [List.find?] at h
  | cons a t ih =>
    by_cases hp : p a
    · rw [List.find?_cons_of_pos _ hp] at h
      simpa [List.find?_cons_of_pos _ hp] using h
    · rw [List.find?_cons_of_neg _ (by simpa using hp)] at h
      simpa [List.find?_cons_of_neg _ (by simpa using hp)] using ih h

/-- If `find?` misses the first list, it continues into the second. -/
theorem find?_append_of_none {α : Type} (p : α → Bool) (l₁ l₂ : List α)
    (h : l₁.find? p = none) : (l₁ ++ l₂).find? p = l₂.find? p := by
  induction l₁ with
  | nil => simp
  | cons a t ih =>
    by_cases hp : p a
    · rw [List.find?_cons_of_pos _ hp] at h
      exact absurd h (by simp)
    · rw [List.find?_cons_of_neg _ (by simpa using hp)] at h
      simpa [List.find?_cons_of_neg _ (by simpa using hp)] using ih h

/-- First-fit characterization of `find?` over `List.range`: a hit is the
least index below `n` satisfying the predicate. -/
theorem find?_range_eq_some (p : ℕ → Bool) (n t : ℕ)
    (h : (List.range n).find? p = some t) :
    t < n ∧ p t = true ∧ ∀ u, u < t → p u = false := by
  induction n with
  | zero => simp [List.range_zero] at h
  | succ m ih =>
    rw [List.range_succ] at h
    cases h' : (List.range m).find? p with
    | some u =>
      have := find?_append_of_some p (List.range m) [m] u h'
      rw [this] at h
      obtain rfl : u = t := by injection h
      obtain ⟨h1, h2, h3⟩ := ih h'
      exact ⟨Nat.lt_succ_of_lt h1, h2, h3⟩
    | none =>
      have := find?_append_of_none p (List.range m) [m] h'
      rw [this] at h
      by_cases hp : p m
      · rw [List.find?_cons_of_pos _ hp] at h
        obtain rfl : m = t := by injection h
        refine ⟨Nat.lt_succ_self _, hp, ?_⟩
        intro u hu
        have := List.find?_eq_none.mp h' u (List.mem_range.mpr hu)
        simpa using this
      · rw [List.find?_cons_of_neg _ (by simpa using hp)] at h
        simp [List.find?] at h

/-- If `find?` over `List.range n` misses, no index below `n` satisfies the
predicate. -/
theorem find?_range_eq_none (p : ℕ → Bool) (n : ℕ)
    (h : (List.range n).find? p = none) : ∀ t, t < n → p t = false := by
  intro t ht
  have := List.find?_eq_none.mp h t (List.mem_range.mpr ht)
  simpa using this

/-- `pair_first_unpaired_gun` rewrites exactly the first `none` entry (if
any) to `some target_idx`, and is the identity when every entry is paired. -/
theorem pair_first_unpaired_gun_spec (target_idx : ℕ) (ps : List (Option ℕ)) :
    (∃ l₁ l₂, ps = l₁ ++ none :: l₂ ∧ (∀ e ∈ l₁, e ≠ none) ∧
      pair_first_unpaired_gun ps target_idx = l₁ ++ some target_idx :: l₂) ∨
    ((∀ e ∈ ps, e ≠ none) ∧ pair_first_unpaired_gun ps target_idx = ps) := by
  induction ps with
  | nil => right; exact ⟨by simp, rfl⟩
  | cons a rest ih =>
    cases a with
    | none => left; exact ⟨[], rest, rfl, by simp, rfl⟩
    | some x =>
      rcases ih with ⟨l₁, l₂, hps, hl₁, hres⟩ | ⟨hall, hres⟩
      · left
        refine ⟨some x :: l₁, l₂, by rw [hps]; rfl, ?_, ?_⟩
        · intro e he
          rcases List.mem_cons.mp he with rfl | he'
          · simp
          · exact hl₁ e he'
        · show some x :: pair_first_unpaired_gun rest target_idx = _
          rw [hres]; rfl
      · right
        refine ⟨?_, ?_⟩
        · intro e he
          rcases List.mem_cons.mp he with rfl | he'
          · simp
          · exact hall e he'
        · show some x :: pair_first_unpaired_gun rest target_idx = _
          rw [hres]

-- ===========================================================================
-- Theorems: C5 (placing an Emitter auto-pairs first-fit)
-- ===========================================================================

/-- Claim C5: placing a new Emitter appends its position, weapon id, and a
pairing entry computed by `find_first_unpaired_target`; that entry is the
first Target index (ascending) not already referenced by any pairing, and it
is `none` exactly when every Target index below the target count is already
referenced. -/
theorem handle_marker_placement_gun_autopair (img : ℝ × ℝ) (slug : String)
    (s : MapState) :
    (handle_marker_placement_gun img slug s).gun_positions
      = s.gun_positions ++ [img] ∧
    (handle_marker_placement_gun img slug s).gun_weapon_ids
      = s.gun_weapon_ids ++ [slug] ∧
    (handle_marker_placement_gun img slug s).target_positions
      = s.target_positions ∧
    (handle_marker_placement_gun img slug s).spotter_positions
      = s.spotter_positions ∧
    (handle_marker_placement_gun img slug s).gun_target_indices
      = s.gun_target_indices ++
        [find_first_unpaired_target s.gun_target_indices
          s.target_positions.length] ∧
    (∀ t, find_first_unpaired_target s.gun_target_indices
        s.target_positions.length = some t →
      t < s.target_positions.length ∧ some t ∉ s.gun_target_indices ∧
        ∀ u, u < t → some u ∈ s.gun_target_indices) ∧
    (find_first_unpaired_target s.gun_target_indices
        s.target_positions.length = none →
      ∀ t, t < s.target_positions.length → some t ∈ s.gun_target_indices) ∧
    ((∀ t, t < s.target_positions.length → some t ∈ s.gun_target_indices) →
      find_first_unpaired_target s.gun_target_indices
        s.target_positions.length = none) := by
  have hsome : ∀ t, find_first_unpaired_target s.gun_target_indices
      s.target_positions.length = some t →
      t < s.target_positions.length ∧ some t ∉ s.gun_target_indices ∧
        ∀ u, u < t → some u ∈ s.gun_target_indices := by
    intro t ht
    obtain ⟨h1, h2, h3⟩ := find?_range_eq_some _ _ _ ht
    refine ⟨h1, by simpa using h2, ?_⟩
    intro u hu
    have := h3 u hu
    simpa using this
  refine ⟨rfl, rfl, rfl, rfl, rfl, hsome, ?_, ?_⟩
  · intro hn t ht
    have := find?_range_eq_none _ _ hn t ht
    simpa using this
  · intro hall
    cases hfind : find_first_unpaired_target s.gun_target_indices
        s.target_positions.length with
    | none => rfl
    | some t =>
      obtain ⟨h1, h2, -⟩ := hsome t hfind
      exact absurd (hall t h1) h2

/-- Witness for C5, the spec's own scenario: with pairings `[some 0]` and two
targets, the new Emitter auto-pairs to Target 1 (the first unreferenced
index). -/
theorem handle_marker_placement_gun_autopair_witness :
    find_first_unpaired_target
      (MapState.mk [((0:ℝ),(0:ℝ))] [((0:ℝ),(0:ℝ)), ((100:ℝ),(100:ℝ))] []
        ["gun"] [some 0]).gun_target_indices
      (MapState.mk [((0:ℝ),(0:ℝ))] [((0:ℝ),(0:ℝ)), ((100:ℝ),(100:ℝ))] []
        ["gun"] [some 0]).target_positions.length = some 1 ∧
    (1 < 2 ∧ some 1 ∉ [some 0] ∧ ∀ u, u < 1 → some u ∈ [some 0]) := by
  have hf : find_first_unpaired_target
      (MapState.mk [((0:ℝ),(0:ℝ))] [((0:ℝ),(0:ℝ)), ((100:ℝ),(100:ℝ))] []
        ["gun"] [some 0]).gun_target_indices
      (MapState.mk [((0:ℝ),(0:ℝ))] [((0:ℝ),(0:ℝ)), ((100:ℝ),(100:ℝ))] []
        ["gun"] [some 0]).target_positions.length = some 1 := by
    show find_first_unpaired_target [some 0] 2 = some 1
    rfl
  have h := (handle_marker_placement_gun_autopair ((0:ℝ),(0:ℝ)) "gun"
    (MapState.mk [((0:ℝ),(0:ℝ))] [((0:ℝ),(0:ℝ)), ((100:ℝ),(100:ℝ))] []
      ["gun"] [some 0])).2.2.2.2.2.1 1 hf
  exact ⟨hf, h.1, h.2.1, h.2.2⟩

-- ===========================================================================
-- Theorems: C6 (Target-mode click dispatch)
-- ===========================================================================

/-- A state with a single target at `(100,100)`. -/
noncomputable def one_target_state : MapState :=
  MapState.mk [] [((100:ℝ),(100:ℝ))] [] [] []

/-- Counterexample to claim C6 as stated: a Target-mode click does NOT append
a new Target "regardless of proximity to existing markers".  Clicking exactly
on the existing target at `(100,100)` (zoom 1) takes the near-target branch:
the target list is left unchanged instead of being appended to. -/
theorem target_mode_click_no_append :
    (handle_marker_placement_target ((100:ℝ),(100:ℝ)) 1 one_target_state).target_positions
      = one_target_state.target_positions ∧
    (handle_marker_placement_target ((100:ℝ),(100:ℝ)) 1 one_target_state).target_positions
      ≠ one_target_state.target_positions ++ [((100:ℝ),(100:ℝ))] := by
  have hd : Real.sqrt ((100 - 100 : ℝ) * (100 - 100) + (100 - 100) * (100 - 100)) = 0 := by
    norm_num
  have hlt : Real.sqrt ((100 - 100 : ℝ) * (100 - 100) + (100 - 100) * (100 - 100))
      < REMOVE_THRESHOLD / min (1:ℝ) 5 := by
    rw [hd, REMOVE_THRESHOLD, min_eq_left (by norm_num)]
    norm_num
  have hfn : find_nearest one_target_state.target_positions ((100:ℝ),(100:ℝ))
      (REMOVE_THRESHOLD / min (1:ℝ) 5) = some 0 := by
    show find_nearest_loop ((100:ℝ),(100:ℝ)) [((100:ℝ),(100:ℝ))] 0 none
      (REMOVE_THRESHOLD / min (1:ℝ) 5) = some 0
    rw [find_nearest_loop]
    simp only [if_pos hlt]
    rfl
  have hmain : (handle_marker_placement_target ((100:ℝ),(100:ℝ)) 1
      one_target_state).target_positions = one_target_state.target_positions := by
    simp only [handle_marker_placement_target]
    rw [hfn]
  refine ⟨hmain, ?_⟩
  rw [hmain]
  intro hcontra
  have := congrArg List.length hcontra
  simp [one_target_state] at this

/-- Claim C6 (amended): on a resolved Target-mode click with no marker
selected, a new Target is appended at the click position exactly when the
click is not within the removal threshold of an existing Target, and the
first currently-unpaired Emitter (ascending index, if one exists) is paired
with the new Target; a click within the threshold of an existing Target
instead pairs the first unpaired Emitter with that existing Target and
appends nothing. -/
theorem handle_marker_placement_target_dispatch (img : ℝ × ℝ) (zoom : ℝ)
    (s : MapState) :
    (find_nearest s.target_positions img (REMOVE_THRESHOLD / min zoom 5) = none →
      (handle_marker_placement_target img zoom s).target_positions
        = s.target_positions ++ [img] ∧
      (handle_marker_placement_target img zoom s).gun_target_indices
        = pair_first_unpaired_gun s.gun_target_indices s.target_positions.length ∧
      (handle_marker_placement_target img zoom s).gun_positions
        = s.gun_positions ∧
      (handle_marker_placement_target img zoom s).spotter_positions
        = s.spotter_positions) ∧
    (∀ ti, find_nearest s.target_positions img (REMOVE_THRESHOLD / min zoom 5)
        = some ti →
      (handle_marker_placement_target img zoom s).target_positions
        = s.target_positions ∧
      (handle_marker_placement_target img zoom s).gun_target_indices
        = pair_first_unpaired_gun s.gun_target_indices ti) ∧
    (∀ ps t_idx,
      (∃ l₁ l₂, ps = l₁ ++ none :: l₂ ∧ (∀ e ∈ l₁, e ≠ none) ∧
        pair_first_unpaired_gun ps t_idx = l₁ ++ some t_idx :: l₂) ∨
      ((∀ e ∈ ps, e ≠ none) ∧ pair_first_unpaired_gun ps t_idx = ps)) := by
  refine ⟨?_, ?_, fun ps t_idx => pair_first_unpaired_gun_spec t_idx ps⟩
  · intro hfn
    have hlen : (s.target_positions ++ [img]).length - 1
        = s.target_positions.length := by simp
    simp only [handle_marker_placement_target]
    rw [hfn, hlen]
    exact ⟨rfl, rfl, rfl, rfl⟩
  · intro ti hfn
    simp only [handle_marker_placement_target]
    rw [hfn]
    exact ⟨rfl, rfl⟩

/-- Witness for C6 (amended): with no targets placed, `find_nearest` misses
and a Target-mode click at `(50,50)` appends the new target. -/
theorem handle_marker_placement_target_dispatch_witness :
    find_nearest (MapState.mk [((0:ℝ),(0:ℝ))] [] [] ["gun"] [none]).target_positions
      ((50:ℝ),(50:ℝ)) (REMOVE_THRESHOLD / min (1:ℝ) 5) = none ∧
    (handle_marker_placement_target ((50:ℝ),(50:ℝ)) 1
        (MapState.mk [((0:ℝ),(0:ℝ))] [] [] ["gun"] [none])).target_positions
      = (MapState.mk [((0:ℝ),(0:ℝ))] [] [] ["gun"] [none]).target_positions
        ++ [((50:ℝ),(50:ℝ))] := by
  have hfn : find_nearest
      (MapState.mk [((0:ℝ),(0:ℝ))] [] [] ["gun"] [none]).target_positions
      ((50:ℝ),(50:ℝ)) (REMOVE_THRESHOLD / min (1:ℝ) 5) = none := by
    show find_nearest_loop ((50:ℝ),(50:ℝ)) [] 0 none
      (REMOVE_THRESHOLD / min (1:ℝ) 5) = none
    rw [find_nearest_loop]
  exact ⟨hfn, ((handle_marker_placement_target_dispatch ((50:ℝ),(50:ℝ)) 1
    (MapState.mk [((0:ℝ),(0:ℝ))] [] [] ["gun"] [none])).1 hfn).1⟩

-- ===========================================================================
-- crates/frontend/src/pages/planner.rs : undo/redo
-- ===========================================================================

/-- The undo history cap (`UNDO_LIMIT`). -/
def UNDO_LIMIT : ℕ := 50

/-- A full copy of the mutable planning state (`planner::PlanSnapshot`). -/
structure PlanSnapshot where
  gun_positions : List (ℝ × ℝ)
  target_positions : List (ℝ × ℝ)
  spotter_positions : List (ℝ × ℝ)
  gun_weapon_ids : List String
  gun_target_indices : List (Option ℕ)
  wind_direction : Option ℝ
  wind_strength : ℕ  -- u32 in the source

/-- `planner::push_undo`: push the snapshot onto the back of the undo stack,
evict the front entry (`Vec::remove(0)`) once the stack exceeds the cap, and
clear the redo stack.  Returns the new `(undo_stack, redo_stack)` pair. -/
def push_undo (undo_stack redo_stack : List PlanSnapshot)
    (snapshot : PlanSnapshot) : List PlanSnapshot × List PlanSnapshot :=
  let stack := undo_stack ++ [snapshot]
  let stack := if UNDO_LIMIT < stack.length then stack.eraseIdx 0 else stack
  (stack, (redo_stack.take 0))

/-- The planner-level state touched by the undo/redo keyboard handlers:
the live planning state (as its snapshot), both history stacks, and the
current marker selection. -/
structure PlannerState where
  live : PlanSnapshot
  undo_stack : List PlanSnapshot
  redo_stack : List PlanSnapshot
  selected_marker : Option SelectedMarker

/-- The planner's Ctrl+Z handler: `Vec::pop` the undo stack (the BACK entry);
if one exists, push the current live state onto the redo stack, restore the
popped snapshot, and clear the selection.  An empty stack pops `None` and the
handler body is skipped. -/
def planner_undo (s : PlannerState) : PlannerState :=
  match s.undo_stack.getLast? with
  | none => s
  | some snap =>
    { live := snap
      undo_stack := s.undo_stack.dropLast
      redo_stack := s.redo_stack ++ [s.live]
      selected_marker := none }

/-- The planner's Ctrl+Shift+Z handler, the mirror of `planner_undo`. -/
def planner_redo (s : PlannerState) : PlannerState :=
  match s.redo_stack.getLast? with
  | none => s
  | some snap =>
    { live := snap
      undo_stack := s.undo_stack ++ [s.live]
      redo_stack := s.redo_stack.dropLast
      selected_marker := none }

-- ===========================================================================
-- Theorems: C7 (undo stack cap and eviction, redo cleared)
-- ===========================================================================

/-- Claim C7: after every `push_undo` the redo stack is empty and, assuming
the cap held before the call, the undo stack holds at most 50 snapshots;
pushes below the cap simply append, and a push at the cap evicts exactly the
oldest entry (index 0), keeping the most recent 50 snapshots in order. -/
theorem push_undo_cap_and_eviction (undo_stack redo_stack : List PlanSnapshot)
    (snapshot : PlanSnapshot) :
    (push_undo undo_stack redo_stack snapshot).2 = [] ∧
    (undo_stack.length ≤ UNDO_LIMIT →
      (push_undo undo_stack redo_stack snapshot).1.length ≤ UNDO_LIMIT) ∧
    (undo_stack.length < UNDO_LIMIT →
      (push_undo undo_stack redo_stack snapshot).1
        = undo_stack ++ [snapshot]) ∧
    (undo_stack.length = UNDO_LIMIT →
      (push_undo undo_stack redo_stack snapshot).1
        = undo_stack.drop 1 ++ [snapshot]) := by
  have key : push_undo undo_stack redo_stack snapshot
      = (if UNDO_LIMIT < (undo_stack ++ [snapshot]).length
          then (undo_stack ++ [snapshot]).eraseIdx 0
          else undo_stack ++ [snapshot], []) := rfl
  have hlen1 : (undo_stack ++ [snapshot]).length = undo_stack.length + 1 := by
    simp
  refine ⟨by rw [key], ?_, ?_, ?_⟩
  · intro hle
    rw [key]
    by_cases hcond : UNDO_LIMIT < (undo_stack ++ [snapshot]).length
    · rw [if_pos hcond]
      have herase := List.length_eraseIdx_of_lt
        (show 0 < (undo_stack ++ [snapshot]).length by simp)
      show ((undo_stack ++ [snapshot]).eraseIdx 0).length ≤ UNDO_LIMIT
      rw [herase, hlen1]
      omega
    · rw [if_neg hcond]
      show (undo_stack ++ [snapshot]).length ≤ UNDO_LIMIT
      rw [hlen1]
      rw [hlen1] at hcond
      omega
  · intro hlt
    rw [key, if_neg (by rw [hlen1]; omega)]
  · intro heq
    rw [key, if_pos (by rw [hlen1]; omega)]
    cases undo_stack with
    | nil => simp [UNDO_LIMIT] at heq
    | cons a t => rfl

/-- A snapshot of the initial (empty) planning state. -/
def empty_snapshot : PlanSnapshot := PlanSnapshot.mk [] [] [] [] [] none 0

/-- Witness for C7: pushing onto an empty undo stack (with a stale redo
entry) respects the cap and clears the redo stack. -/
theorem push_undo_cap_and_eviction_witness :
    ([] : List PlanSnapshot).length ≤ UNDO_LIMIT ∧
    (push_undo [] [empty_snapshot] empty_snapshot).2 = [] ∧
    (push_undo [] [empty_snapshot] empty_snapshot).1.length ≤ UNDO_LIMIT := by
  have h := push_undo_cap_and_eviction [] [empty_snapshot] empty_snapshot
  exact ⟨by simp, h.1, h.2.1 (by simp)⟩

-- ===========================================================================
-- Theorems: C10 (undo/redo on an empty stack is a strict no-op)
-- ===========================================================================

/-- Claim C10: invoking undo with an empty undo stack leaves the planner
state (live planning state, both stacks, and the selection) exactly
unchanged; symmetrically for redo with an empty redo stack. -/
theorem undo_redo_empty_noop (s : PlannerState) :
    (s.undo_stack = [] → planner_undo s = s) ∧
    (s.redo_stack = [] → planner_redo s = s) := by
  constructor
  · intro h
    simp [planner_undo, h]
  · intro h
    simp [planner_redo, h]

/-- Witness for C10: the concrete planner state with empty stacks is fixed
by both undo and redo. -/
theorem undo_redo_empty_noop_witness :
    (PlannerState.mk empty_snapshot [] [] none).undo_stack = [] ∧
    (PlannerState.mk empty_snapshot [] [] none).redo_stack = [] ∧
    planner_undo (PlannerState.mk empty_snapshot [] [] none)
      = PlannerState.mk empty_snapshot [] [] none ∧
    planner_redo (PlannerState.mk empty_snapshot [] [] none)
      = PlannerState.mk empty_snapshot [] [] none := by
  have h := undo_redo_empty_noop (PlannerState.mk empty_snapshot [] [] none)
  exact ⟨rfl, rfl, h.1 rfl, h.2 rfl⟩
